import Mathlib

/-!
Verification of the fb-discord-relay delivery pipeline.

This file gives a shallow embedding of the pipeline's core operations —
signature verification (src/utils/signature.ts), the webhook route gate
(ingress routes), the tag parser (src/utils/tag-parser.ts), the post state
machine (services/post-state.ts), the Discord dispatch classification
(services/discord.ts) and the worker pipeline
(src/worker/handlers/process-post.ts) — and proves or refutes the
specification's claims about them.

Modelling conventions:
- JavaScript strings are Lean `String`s; regex matching against the literal
  (escaped) trigger tag is modelled by direct character-list matching with
  ASCII case folding (the `i` flag).  `\s` is modelled by the ASCII
  whitespace class; `\w` by ASCII alphanumerics plus underscore.
- The database rows touched by the pipeline are all keyed by one
  `fb_post_id`, so the store is modelled per-row: one optional `Post` row,
  its append-only event list and its delivery log.  Prisma's nested
  `events.create` inside an update is atomic; the model applies row update
  and event append in one step.
- Node's `Buffer.from(s, 'hex')` is permissive: it decodes pairs of hex
  digits case-insensitively and stops at the first invalid character or at
  an odd trailing nibble.  `hexDecodeNodeL` reproduces that behaviour.
- External HTTP effects (the Graph fetch, the Discord POST) are modelled as
  oracle parameters: the worker receives the `FetchPostResult` and
  `SendResult` the clients would produce, and the Discord client's response
  handling is the pure function `sendToDiscordClassify` applied to an
  abstract `HttpOutcome`.  HMAC-SHA256 itself is an external primitive
  (node:crypto); it is abstracted as the 32-byte digest it returns.
-/

/-! ## Character and string helpers -/

/-- ASCII case folding for one character, modelling the regex `i` flag and
`String.prototype.toLowerCase` on the ASCII range. -/
def lowerStr (s : String) : String := ⟨s.data.map Char.toLower⟩

/-- Boolean prefix test on character lists. -/
def isPrefixOfL : List Char → List Char → Bool
  | [], _ => true
  | _ :: _, [] => false
  | a :: as, b :: bs => a == b && isPrefixOfL as bs

/-- Boolean substring test (`String.prototype.includes`). -/
def isInfixOfL (needle : List Char) : List Char → Bool
  | [] => isPrefixOfL needle []
  | c :: rest => isPrefixOfL needle (c :: rest) || isInfixOfL needle rest

/-- Substring test on strings: `hay.includes(needle)`. -/
def strIncludes (hay needle : String) : Bool := isInfixOfL needle.data hay.data

/-- The JS `\s` class, restricted to ASCII. -/
def jsWhitespace (c : Char) : Bool :=
  c == ' ' || c == '\t' || c == '\n' || c == '\r' || c == '\x0b' || c == '\x0c'

/-- Collapse every whitespace run to a single space:
`.replace(/\s+/g, ' ')`.  The flag records whether the previous character
belonged to a whitespace run (whose first character already emitted `' '`). -/
def collapseWsAux (inRun : Bool) : List Char → List Char
  | [] => []
  | c :: rest =>
    if jsWhitespace c then
      (if inRun then [] else [' ']) ++ collapseWsAux true rest
    else c :: collapseWsAux false rest

/-- Collapse every whitespace run to a single space. -/
def collapseWs (l : List Char) : List Char := collapseWsAux false l

/-- Both-sided whitespace trim (`String.prototype.trim`). -/
def trimChars (l : List Char) : List Char :=
  ((l.dropWhile (jsWhitespace ·)).reverse.dropWhile (jsWhitespace ·)).reverse

/-- `String.prototype.trim` as a string function. -/
def strTrim (s : String) : String := ⟨trimChars s.data⟩

/-! ## Hex encoding and Node's permissive hex decoding -/

/-- Lowercase hex digit for a nibble, as produced by `hmac.digest('hex')`. -/
def hexDigitChar (n : Nat) : Char :=
  if n < 10 then Char.ofNat (48 + n) else Char.ofNat (87 + n)

/-- Value of a hex digit; `Buffer.from(_, 'hex')` accepts both cases. -/
def hexVal (c : Char) : Option Nat :=
  if '0' ≤ c ∧ c ≤ '9' then some (c.toNat - 48)
  else if 'a' ≤ c ∧ c ≤ 'f' then some (c.toNat - 87)
  else if 'A' ≤ c ∧ c ≤ 'F' then some (c.toNat - 55)
  else none

/-- Lowercase hex encoding of a byte list (`digest('hex')`). -/
def hexEncodeBytes (bytes : List Nat) : List Char :=
  (bytes.map (fun b => [hexDigitChar (b / 16), hexDigitChar (b % 16)])).flatten

/-- Lowercase hex encoding, as a string. -/
def hexEncode (bytes : List Nat) : String := ⟨hexEncodeBytes bytes⟩

/-- Node `Buffer.from(s, 'hex')`: decode pairs of hex digits, stopping at the
first invalid character or odd trailing nibble, case-insensitively. -/
def hexDecodeNodeL : List Char → List Nat
  | c1 :: c2 :: rest =>
    match hexVal c1, hexVal c2 with
    | some hi, some lo => (16 * hi + lo) :: hexDecodeNodeL rest
    | _, _ => []
  | _ => []

/-! ## Signature verification (src/utils/signature.ts `verifySignature`)

`appSecretMac` stands for the 32 bytes of `HMAC-SHA256(app_secret, rawBody)`;
the HMAC computation itself lives in node:crypto and is abstracted as this
byte list. -/

def verifySignature (appSecretMac : List Nat) (signature : Option String) : Bool :=
  match signature with
  | none => false
  | some s =>
    let sig := s.data
    let pre := "sha256=".data
    if isPrefixOfL pre sig then
      let providedHash := sig.drop pre.length
      let expectedHash := hexEncodeBytes appSecretMac
      let providedBuffer := hexDecodeNodeL providedHash
      let expectedBuffer := hexDecodeNodeL expectedHash
      -- length check, then timingSafeEqual (functionally: equality)
      providedBuffer.length == expectedBuffer.length && providedBuffer == expectedBuffer
    else false

/-! ## Configuration (src/config.ts)

`CHANNEL_ROUTES` is modelled after JSON parsing as tag/url pairs;
`CHANNEL_PRIORITY` as the raw comma-separated items. Defaults mirror the zod
schema's defaults (required options default to `""`/`[]` for convenience). -/

structure Config where
  TRIGGER_TAG : String := "#discord"
  DISCORD_WEBHOOK_URL : String := ""
  DISCORD_WEBHOOK_WAIT : Bool := true
  DISCORD_DISCLAIMER : String := "Not financial advice. Do your own research."
  DISCORD_MENTION_ROLE_ID : Option String := none
  ALERTS_ENABLED : Bool := true
  MAX_POST_AGE_MINUTES : Nat := 30
  CHANNEL_ROUTES : List (String × String) := []
  CHANNEL_PRIORITY : List String := ["#stockmarketnews", "#stockstowatch"]
deriving DecidableEq, Repr

/-- JS `Map.set` semantics: replace the value in place, else append. -/
def mapSet (m : List (String × String)) (k v : String) : List (String × String) :=
  if m.any (fun e => e.1 == k) then m.map (fun e => if e.1 == k then (k, v) else e)
  else m ++ [(k, v)]

/-- JS `Map.get`. -/
def mapGet (m : List (String × String)) (k : String) : Option String :=
  (m.find? (fun e => e.1 == k)).map (·.2)

/-- JS `Map.has`. -/
def mapHas (m : List (String × String)) (k : String) : Bool :=
  m.any (fun e => e.1 == k)

/-- `getChannelRoutes`: lowercase every tag key into a Map. -/
def getChannelRoutes (cfg : Config) : List (String × String) :=
  cfg.CHANNEL_ROUTES.foldl (fun m e => mapSet m (lowerStr e.1) e.2) []

/-- `getChannelPriority`: trim, lowercase and drop empty items. -/
def getChannelPriority (cfg : Config) : List String :=
  (cfg.CHANNEL_PRIORITY.map (fun t => lowerStr (strTrim t))).filter (fun t => t ≠ "")

/-! ## Tag parser (src/utils/tag-parser.ts)

The compiled regex is the escaped literal trigger tag followed by the
negative lookahead `(?![\w-])`, with the `i` flag; matching is modelled by
literal case-folded comparison (faithful for trigger tags free of regex
metacharacters, such as the default `#discord`). -/

/-- One char of `[\w-]` (ASCII `\w` plus dash). -/
def isWordDashChar (c : Char) : Bool := c.isAlphanum || c == '_' || c == '-'

/-- Does the pattern match at the head of `hay` (tag then `(?![\w-])`)?
Both lists are already case-folded. -/
def tagMatchAt (tag hay : List Char) : Bool :=
  isPrefixOfL tag hay &&
    (match hay.drop tag.length with
     | [] => true
     | c :: _ => !isWordDashChar c)

/-- Does the pattern match anywhere in `hay`? -/
def hasTagL (tag : List Char) : List Char → Bool
  | [] => tagMatchAt tag []
  | c :: rest => tagMatchAt tag (c :: rest) || hasTagL tag rest

/-- `hasTag`: trigger-tag test; `!message` rejects null/undefined and `""`. -/
def hasTag (cfg : Config) (message : Option String) : Bool :=
  match message with
  | none => false
  | some m =>
    if m = "" then false
    else hasTagL (lowerStr cfg.TRIGGER_TAG).data (lowerStr m).data

/-- `hasAnyTrackedTag`: the trigger tag, or any channel-route tag as a plain
case-insensitive substring. -/
def hasAnyTrackedTag (cfg : Config) (message : Option String) : Bool :=
  match message with
  | none => false
  | some m =>
    if m = "" then false
    else if hasTag cfg (some m) then true
    else (getChannelRoutes cfg).any (fun e => isInfixOfL e.1.data (lowerStr m).data)

/-- Scan of the priority list in `findRoutedChannel`:
`msgLower.includes(tag) && routes.has(tag)`, first hit wins. -/
def findRoutedAux (routes : List (String × String)) (msgLower : String) :
    List String → Option (String × String)
  | [] => none
  | t :: rest =>
    if isInfixOfL t.data msgLower.data && mapHas routes t then
      some (t, (mapGet routes t).getD "")
    else findRoutedAux routes msgLower rest

/-- `findRoutedChannel`: highest-priority matching routed hashtag. -/
def findRoutedChannel (cfg : Config) (message : Option String) :
    Option (String × String) :=
  match message with
  | none => none
  | some m =>
    if m = "" then none
    else findRoutedAux (getChannelRoutes cfg) (lowerStr m) (getChannelPriority cfg)

/-- One global-replace pass of `message.replace(tagPattern, '')`: remove
non-overlapping occurrences, left to right; `tag` is already case-folded and
nonempty, the scanned text keeps its original case.  The `fuel` argument
(instantiated with the text's length, which bounds the recursion depth)
makes the recursion structural. -/
def stripOccFuel (tag : List Char) : Nat → List Char → List Char
  | 0, l => l
  | _ + 1, [] => []
  | fuel + 1, c :: rest =>
    if isPrefixOfL tag ((c :: rest).map Char.toLower) then
      stripOccFuel tag fuel (rest.drop (tag.length - 1))
    else c :: stripOccFuel tag fuel rest

/-- One global-replace pass of `message.replace(tagPattern, '')`. -/
def stripOcc (tag hay : List Char) : List Char := stripOccFuel tag hay.length hay

/-- `stripTag`: remove every trigger-tag occurrence, collapse whitespace,
trim.  (A `RegExp` built from the empty string matches emptily and removes
nothing.) -/
def stripTag (cfg : Config) (message : String) : String :=
  let tag := (lowerStr cfg.TRIGGER_TAG).data
  let removed := if tag.isEmpty then message.data else stripOcc tag message.data
  ⟨trimChars (collapseWs removed)⟩


/-! ## Data model (prisma schema, services/post-state.ts)

The store is modelled per `fb_post_id`: the operations below all act on the
single row identified by that key, its append-only `PostEvent` list and its
`DeliveryLog` list. -/

inductive PostStatus where
  | received | fetching | eligible | sending | delivered | ignored | failed | needs_review
deriving DecidableEq, Repr

/-- The string Prisma interpolates for `status_${toStatus}` event names. -/
def statusName : PostStatus → String
  | .received => "received"
  | .fetching => "fetching"
  | .eligible => "eligible"
  | .sending => "sending"
  | .delivered => "delivered"
  | .ignored => "ignored"
  | .failed => "failed"
  | .needs_review => "needs_review"

/-- `VALID_TRANSITIONS` of services/post-state.ts, verbatim. -/
def VALID_TRANSITIONS : PostStatus → List PostStatus
  | .received => [.fetching]
  | .fetching => [.eligible, .ignored, .failed, .received]
  | .eligible => [.sending]
  | .sending => [.delivered, .failed, .needs_review]
  | .delivered => []
  | .ignored => []
  | .failed => [.received]
  | .needs_review => [.received]

/-- A `posts` row.  Timestamps are epoch milliseconds. -/
structure Post where
  fbPostId : String
  status : PostStatus
  authorId : Option String := none
  authorName : Option String := none
  message : Option String := none
  permalink : Option String := none
  createdAt : Option Int := none
  discordMsgId : Option String := none
  deliveredAt : Option Int := none
  retryCount : Nat := 0
  lastError : Option String := none
deriving DecidableEq, Repr

/-- A JSON leaf inside a `PostEvent.details` object. -/
inductive DetailVal where
  | str (s : String)
  | num (n : Int)
deriving DecidableEq, Repr

/-- A `post_events` row (append-only). -/
structure PostEvent where
  event : String
  details : List (String × DetailVal)
deriving DecidableEq, Repr

/-- A `delivery_logs` row (append-only). -/
structure DeliveryLog where
  fbPostId : String
  success : Bool
  discordMsgId : Option String := none
  errorMessage : Option String := none
  latencyMs : Option Int := none
deriving DecidableEq, Repr

/-- The store restricted to one `fb_post_id`. -/
structure DB where
  post : Option Post
  events : List PostEvent
  deliveryLogs : List DeliveryLog
deriving DecidableEq, Repr

/-- The caller-supplied `updates` object of `transitionPost`.  `none` models
an absent (`undefined`) property, which Prisma skips. -/
structure PostUpdates where
  authorId : Option String := none
  authorName : Option String := none
  message : Option String := none
  permalink : Option String := none
  createdAt : Option Int := none
  discordMsgId : Option String := none
  deliveredAt : Option Int := none
  lastError : Option String := none
  retryCount : Option Nat := none
deriving DecidableEq, Repr

/-- Spread the updates over a row, skipping absent properties. -/
def applyUpdates (p : Post) (u : PostUpdates) : Post :=
  { p with
    authorId := (match u.authorId with | some v => some v | none => p.authorId)
    authorName := (match u.authorName with | some v => some v | none => p.authorName)
    message := (match u.message with | some v => some v | none => p.message)
    permalink := (match u.permalink with | some v => some v | none => p.permalink)
    createdAt := (match u.createdAt with | some v => some v | none => p.createdAt)
    discordMsgId := (match u.discordMsgId with | some v => some v | none => p.discordMsgId)
    deliveredAt := (match u.deliveredAt with | some v => some v | none => p.deliveredAt)
    lastError := (match u.lastError with | some v => some v | none => p.lastError)
    retryCount := (match u.retryCount with | some v => v | none => p.retryCount) }

/-! ## Post state operations (services/post-state.ts) -/

/-- `getOrCreatePost`: idempotent create of the row in state `received`,
with a `webhook_received` event; returns the row and whether it was newly
created.  (`nowIso` is the timestamp string recorded in the details.) -/
def getOrCreatePost (db : DB) (fbPostId : String) (nowIso : String) :
    DB × Post × Bool :=
  match db.post with
  | some existing => (db, existing, false)
  | none =>
    let post : Post := { fbPostId := fbPostId, status := .received }
    ({ db with
        post := some post
        events := db.events ++ [⟨"webhook_received", [("timestamp", .str nowIso)]⟩] },
      post, true)

/-- `transitionPost`: validated status transition.  On a missing row or an
edge absent from `VALID_TRANSITIONS` it changes nothing and returns the
null sentinel; otherwise it atomically sets the status, spreads the updates
and appends one `status_<target>` event. -/
def transitionPost (db : DB) (toStatus : PostStatus) (updates : PostUpdates)
    (eventDetails : List (String × DetailVal)) : DB × Option Post :=
  match db.post with
  | none => (db, none)
  | some post =>
    if toStatus ∈ VALID_TRANSITIONS post.status then
      let updated : Post := { applyUpdates post updates with status := toStatus }
      ({ db with
          post := some updated
          events := db.events ++ [⟨"status_" ++ statusName toStatus, eventDetails⟩] },
        some updated)
    else (db, none)

/-- `markForRetry`: unless the row is missing or already `delivered`, set
status back to `received`, record the error, bump `retry_count` and append a
`marked_for_retry` event. -/
def markForRetry (db : DB) (error : String) : DB × Option Post :=
  match db.post with
  | none => (db, none)
  | some post =>
    if post.status = .delivered then (db, some post)
    else
      let newRetryCount := post.retryCount + 1
      let updated : Post :=
        { post with status := .received, lastError := some error, retryCount := newRetryCount }
      ({ db with
          post := some updated
          events := db.events ++
            [⟨"marked_for_retry",
              [("error", .str error), ("retryCount", .num newRetryCount)]⟩] },
        some updated)

/-- `logDelivery`: append one delivery-attempt row. -/
def logDelivery (db : DB) (fbPostId : String) (success : Bool)
    (discordMsgId : Option String) (errorMessage : Option String)
    (latencyMs : Option Int) : DB :=
  { db with deliveryLogs := db.deliveryLogs ++
      [⟨fbPostId, success, discordMsgId, errorMessage, latencyMs⟩] }

/-! ## Upstream fetch client surface (services/facebook.ts) -/

/-- The `from` object of a Graph post. -/
structure FbFrom where
  id : String
  name : String
deriving DecidableEq, Repr

/-- A fetched Graph post.  `created_time` is the epoch-millisecond value of
the ISO timestamp string (`Date` parsing abstracted); attachments are not
consumed by any verified claim and are omitted. -/
structure FacebookPost where
  id : String
  message : Option String := none
  permalink_url : Option String := none
  created_time : Option Int := none
  author : Option FbFrom := none
deriving DecidableEq, Repr

/-- `FetchPostResult` of services/facebook.ts.  (`author` stands for the
source's `from` field, a Lean keyword.) -/
structure FetchPostResult where
  success : Bool
  post : Option FacebookPost := none
  error : Option String := none
  retryable : Bool := false
deriving DecidableEq, Repr

/-! ## Downstream dispatch client (services/discord.ts) -/

/-- `SendResult` of services/discord.ts; absent optional booleans are
modelled as `false` (their only falsy reading at use sites). -/
structure SendResult where
  success : Bool
  messageId : Option String := none
  error : Option String := none
  retryable : Bool := false
  retryAfterMs : Option Nat := none
  ambiguous : Bool := false
  channel : Option String := none
deriving DecidableEq, Repr

/-- What the single `fetch` of `sendToDiscord` produced: an HTTP response
(status, parsed `Retry-After` seconds, the `id` of the parsed JSON body if
any, and the body text), an abort of the 30-second timeout, or another
transport error. -/
inductive HttpOutcome where
  | response (status : Nat) (retryAfter : Option Nat) (bodyId : Option String) (bodyText : String)
  | abortTimeout
  | networkError (message : String)
deriving DecidableEq, Repr

/-- The response-classification tail of `sendToDiscord` (lines 148-195):
429 first, then non-2xx, then success (parsing the message id only when
`DISCORD_WEBHOOK_WAIT` requested `?wait=true`), with the abort of the 30 s
timer classified as ambiguous and any other transport error as retryable. -/
def sendToDiscordClassify (wait : Bool) (channelLabel : String) :
    HttpOutcome → SendResult
  | .response status retryAfter _bodyId bodyText =>
    if status = 429 then
      { success := false, error := some "Rate limited", retryable := true,
        retryAfterMs := some (match retryAfter with | some s => s * 1000 | none => 5000),
        channel := some channelLabel }
    else if ¬(200 ≤ status ∧ status ≤ 299) then
      { success := false,
        error := some ("HTTP " ++ toString status ++ ": " ++ bodyText),
        retryable := decide (500 ≤ status), channel := some channelLabel }
    else
      { success := true, messageId := if wait then _bodyId else none,
        channel := some channelLabel }
  | .abortTimeout =>
    { success := false, error := some "Request timed out - delivery status unknown",
      retryable := false, ambiguous := true, channel := some channelLabel }
  | .networkError message =>
    { success := false, error := some message, retryable := true,
      channel := some channelLabel }

/-- `resolveWebhook`: route by the highest-priority matching hashtag, else
fall back to the default webhook URL with label `default`. -/
def resolveWebhook (cfg : Config) (post : FacebookPost) : String × String × String :=
  let message := post.message.getD ""
  match findRoutedChannel cfg (some message) with
  | some (tag, url) =>
    let title :=
      if tag = "#stockmarketnews" then "📰 STOCK MARKET NEWS"
      else if tag = "#stockstowatch" then "👀 STOCKS TO WATCH"
      else "📈 TRADE ALERT"
    (url, tag, title)
  | none => (cfg.DISCORD_WEBHOOK_URL, "default", "📈 TRADE ALERT")

/-! ## Worker pipeline (src/worker/handlers/process-post.ts) -/

/-- The `webhookData` payload carried by a job.  `createdTime` is epoch
seconds, as delivered by the webhook. -/
structure WebhookData where
  message : Option String := none
  sender : Option FbFrom := none
  createdTime : Option Int := none
deriving DecidableEq, Repr

/-- `isPostTooOld` (worker variant): age filtering disabled at 0; absent
`created_time` is rejected as too old; otherwise compare the age in
milliseconds against the configured horizon. -/
def isPostTooOld (cfg : Config) (now : Int) (createdTime : Option Int) : Bool :=
  if cfg.MAX_POST_AGE_MINUTES = 0 then false
  else
    match createdTime with
    | none => true
    | some t => decide ((now - t) > (cfg.MAX_POST_AGE_MINUTES : Int) * 60 * 1000)

/-- The post record the worker continues with: the fetched post on success
(the source's `fetchResult.post!` assertion modelled by a defaulted row), or
a record synthesized from truthy webhook-fallback data (`createdTime`
seconds scaled to milliseconds; `0` is falsy). -/
def effectiveFbPost (fbPostId : String) (webhookData : Option WebhookData)
    (fetchResult : FetchPostResult) : Option FacebookPost :=
  if fetchResult.success then some (fetchResult.post.getD { id := fbPostId })
  else
    match webhookData with
    | none => none
    | some wd =>
      match wd.message with
      | none => none
      | some msg =>
        if msg = "" then none
        else some
          { id := fbPostId, message := some msg, author := wd.sender,
            created_time :=
              (match wd.createdTime with
               | some n => if n ≠ 0 then some (n * 1000) else none
               | none => none) }

/-- The row after the data-only `prisma.post.update` of step 5 (absent
fetched fields are skipped; status untouched). -/
def persistPost (p : Post) (fbPost : FacebookPost) : Post :=
  { p with
    authorId := (match fbPost.author with | some f => some f.id | none => p.authorId)
    authorName := (match fbPost.author with | some f => some f.name | none => p.authorName)
    message := (match fbPost.message with | some m => some m | none => p.message)
    permalink := (match fbPost.permalink_url with | some u => some u | none => p.permalink)
    createdAt := (match fbPost.created_time with | some t => some t | none => p.createdAt) }

/-- The data-only `prisma.post.update` of step 5 (does not change status,
appends no event). -/
def persistFetchedFields (db : DB) (fbPost : FacebookPost) : DB :=
  match db.post with
  | none => db
  | some p => { db with post := some (persistPost p fbPost) }

/-- Result of one `processPost` job: the store afterwards, whether the
handler re-raised (so the queue reschedules), and how many Discord dispatch
calls it made. -/
structure ProcResult where
  db : DB
  raised : Bool
  sinkCalls : Nat
deriving DecidableEq, Repr

/-- Step 11 of the worker pipeline: classify the dispatch outcome reported
by the Discord client (success / ambiguous / retryable / non-retryable). -/
def processOutcome (now elapsed : Int) (sendResult : SendResult) (db5 : DB) :
    ProcResult :=
  if sendResult.success then
    ⟨(transitionPost db5 .delivered
        { discordMsgId := sendResult.messageId, deliveredAt := some now }
        ((match sendResult.messageId with
          | some m => [("messageId", DetailVal.str m)] | none => []) ++
         [("latencyMs", DetailVal.num elapsed)] ++
         (match sendResult.channel with
          | some c => [("channel", DetailVal.str c)] | none => []))).1,
      false, 1⟩
  else if sendResult.ambiguous then
    ⟨(transitionPost db5 .needs_review { lastError := sendResult.error }
        ([("reason", DetailVal.str "Delivery status unknown")] ++
         (match sendResult.error with
          | some e => [("error", DetailVal.str e)] | none => []))).1,
      false, 1⟩
  else if sendResult.retryable then
    ⟨(markForRetry db5 (sendResult.error.getD "Send failed")).1, true, 1⟩
  else
    ⟨(transitionPost db5 .failed { lastError := sendResult.error }
        (match sendResult.error with
         | some e => [("error", DetailVal.str e)] | none => [])).1,
      false, 1⟩

/-- Steps 6-11 of the worker pipeline, from the store state `db2` reached
after the fetched fields were persisted. -/
def processAfterFetch (cfg : Config) (now elapsed : Int) (fbPostId : String)
    (sendResult : SendResult) (fbPost : FacebookPost) (db2 : DB) : ProcResult :=
  if isPostTooOld cfg now fbPost.created_time then
    ⟨(transitionPost db2 .ignored {} [("reason", .str "Post too old")]).1, false, 0⟩
  else if hasAnyTrackedTag cfg fbPost.message = false then
    ⟨(transitionPost db2 .ignored {} [("reason", .str "No tracked hashtag")]).1, false, 0⟩
  else
    let db3 := (transitionPost db2 .eligible {} []).1
    let db4 := (transitionPost db3 .sending {} []).1
    let db5 := logDelivery db4 fbPostId sendResult.success
      sendResult.messageId sendResult.error (some elapsed)
    processOutcome now elapsed sendResult db5

/-- `processPost`: load / terminal short-circuit / kill switch / transition
to fetching / fetch (with webhook-data fallback, retry re-raise or failed) /
persist fetched fields / post-fetch age gate / tracked-tag filter / eligible
and sending transitions / dispatch / delivery log / outcome handling.
`fetchResult` and `sendResult` are the oracle responses of the two external
HTTP clients; `now` is `Date.now()` at the outcome step and `elapsed` the
measured latency. -/
def processPost (cfg : Config) (now elapsed : Int) (db : DB)
    (webhookData : Option WebhookData) (fetchResult : FetchPostResult)
    (sendResult : SendResult) : ProcResult :=
  match db.post with
  | none => ⟨db, false, 0⟩
  | some post =>
    if post.status = .delivered ∨ post.status = .ignored then ⟨db, false, 0⟩
    else if cfg.ALERTS_ENABLED = false then ⟨db, false, 0⟩
    else
      let db1 := (transitionPost db .fetching {} []).1
      match effectiveFbPost post.fbPostId webhookData fetchResult with
      | none =>
        if fetchResult.retryable then
          ⟨(markForRetry db1 (fetchResult.error.getD "Fetch failed")).1, true, 0⟩
        else
          ⟨(transitionPost db1 .failed { lastError := fetchResult.error } []).1, false, 0⟩
      | some fbPost =>
        processAfterFetch cfg now elapsed post.fbPostId sendResult fbPost
          (persistFetchedFields db1 fbPost)

/-- The ingress POST handler's signature gate: a bad or missing signature
answers 403 before touching any state; on acceptance the rest of the handler
(`continueHandler`) runs. -/
def handleWebhookPost (appSecretMac : List Nat) (signature : Option String)
    (db : DB) (continueHandler : DB → Nat × DB) : Nat × DB :=
  if verifySignature appSecretMac signature then continueHandler db else (403, db)

/-- One pipeline-performed store mutation: the ingress upsert, one worker
job execution (under arbitrary oracle responses), or the operator-initiated
retry.  Manual operator SQL is outside the pipeline. -/
inductive PipelineStep (cfg : Config) : DB → DB → Prop where
  | create (db : DB) (fbPostId nowIso : String) :
      PipelineStep cfg db (getOrCreatePost db fbPostId nowIso).1
  | process (db : DB) (now elapsed : Int) (webhookData : Option WebhookData)
      (fetchResult : FetchPostResult) (sendResult : SendResult) :
      PipelineStep cfg db (processPost cfg now elapsed db webhookData fetchResult sendResult).db
  | retry (db : DB) (error : String) :
      PipelineStep cfg db (markForRetry db error).1


/-! ## State-machine lemmas -/

/-- A transition whose edge is absent from the table is a no-op returning
the null sentinel. -/
lemma transitionPost_invalid {db : DB} {p : Post} {ts : PostStatus}
    {u : PostUpdates} {det : List (String × DetailVal)}
    (hp : db.post = some p) (h : ts ∉ VALID_TRANSITIONS p.status) :
    transitionPost db ts u det = (db, none) := by
  simp [transitionPost, hp, h]

/-- A transition whose edge is in the table updates the row and appends one
`status_<target>` event. -/
lemma transitionPost_valid {db : DB} {p : Post} {ts : PostStatus}
    {u : PostUpdates} {det : List (String × DetailVal)}
    (hp : db.post = some p) (h : ts ∈ VALID_TRANSITIONS p.status) :
    transitionPost db ts u det =
      ({ db with
          post := some { applyUpdates p u with status := ts }
          events := db.events ++ [⟨"status_" ++ statusName ts, det⟩] },
        some { applyUpdates p u with status := ts }) := by
  simp [transitionPost, hp, h]

/-- `markForRetry` on a `delivered` row returns the row unchanged. -/
lemma markForRetry_delivered {db : DB} {p : Post}
    (hp : db.post = some p) (h : p.status = .delivered) (e : String) :
    markForRetry db e = (db, some p) := by
  simp [markForRetry, hp, h]

/-- `markForRetry` on a non-`delivered` row resets it to `received`,
recording the error and bumping the retry count. -/
lemma markForRetry_not_delivered {db : DB} {p : Post}
    (hp : db.post = some p) (h : p.status ≠ .delivered) (e : String) :
    markForRetry db e =
      ({ db with
          post := some { p with status := .received, lastError := some e,
                                retryCount := p.retryCount + 1 }
          events := db.events ++
            [⟨"marked_for_retry",
              [("error", .str e), ("retryCount", .num (p.retryCount + 1))]⟩] },
        some { p with status := .received, lastError := some e,
                      retryCount := p.retryCount + 1 }) := by
  simp [markForRetry, hp, h]

/-- `processPost` on a row already in a terminal state returns success at
once without touching the store or the sink. -/
lemma processPost_terminal {cfg : Config} {now elapsed : Int} {db : DB}
    {wd : Option WebhookData} {fr : FetchPostResult} {sr : SendResult} {p : Post}
    (hp : db.post = some p) (h : p.status = .delivered ∨ p.status = .ignored) :
    processPost cfg now elapsed db wd fr sr = ⟨db, false, 0⟩ := by
  simp only [processPost, hp]
  rw [if_pos h]

/-! ## Claims about the state machine -/

/-- C1 (amended): `transitionPost` executes only edges of the §4.3 table —
a requested edge absent from the table is a no-op that changes no field,
appends no event and returns the null sentinel, and every non-null return
travelled a table edge.  `markForRetry`, however, does not consult the
table: on every row except a `delivered` one it sets the status to
`received` (bumping `retry_count`), even from states such as `sending`
whose table row does not include `received`; on `delivered` it returns the
row unchanged and non-null. -/
theorem transitionTable_enforced_except_markForRetry
    (db : DB) (p : Post) (ts : PostStatus) (u : PostUpdates)
    (det : List (String × DetailVal)) (e : String)
    (hp : db.post = some p) :
    (ts ∉ VALID_TRANSITIONS p.status → transitionPost db ts u det = (db, none)) ∧
    (∀ db' q, transitionPost db ts u det = (db', some q) →
      ts ∈ VALID_TRANSITIONS p.status ∧ q.status = ts) ∧
    (p.status ≠ .delivered →
      ∃ q, markForRetry db e = ({ db with
          post := some q
          events := db.events ++
            [⟨"marked_for_retry",
              [("error", .str e), ("retryCount", .num (p.retryCount + 1))]⟩] }, some q) ∧
        q.status = .received ∧ q.retryCount = p.retryCount + 1) ∧
    (p.status = .delivered → markForRetry db e = (db, some p)) := by
  refine ⟨fun h => transitionPost_invalid hp h, ?_, ?_, ?_⟩
  · intro db' q hq
    by_cases h : ts ∈ VALID_TRANSITIONS p.status
    · refine ⟨h, ?_⟩
      rw [transitionPost_valid hp h] at hq
      cases hq
      rfl
    · rw [transitionPost_invalid hp h] at hq
      cases hq
  · intro h
    exact ⟨_, markForRetry_not_delivered hp h e, rfl, rfl⟩
  · intro h
    exact markForRetry_delivered hp h e

/-- C1 witness: at a concrete `received` row, the off-table edge
`received → delivered` is refused as a no-op with the null sentinel. -/
theorem transitionTable_enforced_witness :
    transitionPost ⟨some { fbPostId := "w1", status := .received }, [], []⟩
      .delivered {} [] =
      (⟨some { fbPostId := "w1", status := .received }, [], []⟩, none) :=
  (transitionTable_enforced_except_markForRetry
      ⟨some { fbPostId := "w1", status := .received }, [], []⟩
      { fbPostId := "w1", status := .received } .delivered {} [] "e" rfl).1
    (by decide)

/-- C1 counterexample: the pipeline's retry path executes `sending →
received` via `markForRetry` although that edge is not in the table, and it
is not a no-op — the row changes and the return value is not the null
sentinel.  This refutes the claim that every status-changing operation,
including `markForRetry`, obeys the table. -/
theorem markForRetry_offTable_transition_cex :
    (PostStatus.received ∉ VALID_TRANSITIONS .sending) ∧
    (markForRetry ⟨some { fbPostId := "p1", status := .sending }, [], []⟩ "err").2 ≠ none ∧
    (markForRetry ⟨some { fbPostId := "p1", status := .sending }, [], []⟩ "err").1 ≠
      ⟨some { fbPostId := "p1", status := .sending }, [], []⟩ ∧
    ((markForRetry ⟨some { fbPostId := "p1", status := .sending }, [], []⟩ "err").1.post.map
        Post.status) = some .received := by
  decide

/-- C3 (amended): every successful `transitionPost` atomically appends
exactly one `PostEvent` named `status_<target>` (and a refused transition
appends none); but the retry path that resets the status to `received`
appends one event named `marked_for_retry`, not `status_received`. -/
theorem statusChange_event_names
    (db : DB) (p : Post) (ts : PostStatus) (u : PostUpdates)
    (det : List (String × DetailVal)) (e : String)
    (hp : db.post = some p) :
    (∀ db' q, transitionPost db ts u det = (db', some q) →
      db'.events = db.events ++ [⟨"status_" ++ statusName ts, det⟩]) ∧
    (∀ db', transitionPost db ts u det = (db', none) → db' = db) ∧
    (p.status ≠ .delivered →
      (markForRetry db e).1.events = db.events ++
        [⟨"marked_for_retry",
          [("error", .str e), ("retryCount", .num (p.retryCount + 1))]⟩]) := by
  refine ⟨?_, ?_, ?_⟩
  · intro db' q hq
    by_cases h : ts ∈ VALID_TRANSITIONS p.status
    · rw [transitionPost_valid hp h] at hq
      cases hq
      rfl
    · rw [transitionPost_invalid hp h] at hq
      cases hq
  · intro db' hq
    by_cases h : ts ∈ VALID_TRANSITIONS p.status
    · rw [transitionPost_valid hp h] at hq
      cases hq
    · rw [transitionPost_invalid hp h] at hq
      cases hq
      rfl
  · intro h
    rw [markForRetry_not_delivered hp h e]

/-- C3 witness: a concrete valid transition `received → fetching` appends
exactly the single event `status_fetching`. -/
theorem statusChange_event_names_witness :
    (transitionPost ⟨some { fbPostId := "w3", status := .received }, [], []⟩
        .fetching {} []).1.events = [⟨"status_fetching", []⟩] := by
  have h := (statusChange_event_names
      ⟨some { fbPostId := "w3", status := .received }, [], []⟩
      { fbPostId := "w3", status := .received } .fetching {} [] "e" rfl).1
      (transitionPost ⟨some { fbPostId := "w3", status := .received }, [], []⟩
        .fetching {} []).1
      { fbPostId := "w3", status := .fetching } (by decide)
  simpa using h

/-- C3 counterexample: `markForRetry` on a `fetching` row changes the status
(to `received`) yet the single event it appends is named `marked_for_retry`,
not `status_received` — refuting the claim that every status change appends
an event named `status_<target>`. -/
theorem markForRetry_event_name_cex :
    ((markForRetry ⟨some { fbPostId := "p1", status := .fetching }, [], []⟩ "boom").1.post.map
        Post.status) = some .received ∧
    ((markForRetry ⟨some { fbPostId := "p1", status := .fetching }, [], []⟩ "boom").1.events.map
        PostEvent.event) = ["marked_for_retry"] ∧
    "marked_for_retry" ≠ "status_" ++ statusName .received := by
  decide

/-- C4 (amended): rows in terminal states are protected from
`transitionPost` (every edge out of `delivered` or `ignored` is refused as
a no-op) and from `processPost` (which returns success immediately, leaving
the store untouched and calling the sink zero times), and `markForRetry`
leaves a `delivered` row unchanged — but `markForRetry` refuses only
`delivered`: invoked on an `ignored` row it does mutate it (see the
counterexample), so ignored rows are not protected from every pipeline
operation. -/
theorem terminal_row_protection
    (db : DB) (p : Post) (hp : db.post = some p) :
    ((p.status = .delivered ∨ p.status = .ignored) →
      (∀ ts u det, transitionPost db ts u det = (db, none)) ∧
      (∀ cfg now elapsed wd fr sr,
        processPost cfg now elapsed db wd fr sr = ⟨db, false, 0⟩)) ∧
    (p.status = .delivered → ∀ e, markForRetry db e = (db, some p)) := by
  constructor
  · intro h
    constructor
    · intro ts u det
      refine transitionPost_invalid hp ?_
      rcases h with h | h <;> rw [h] <;> simp [VALID_TRANSITIONS]
    · intro cfg now elapsed wd fr sr
      exact processPost_terminal hp h
  · intro h e
    exact markForRetry_delivered hp h e

/-- C4 witness: a concrete `delivered` row survives a requested transition,
a worker run, and a retry request completely unchanged. -/
theorem terminal_row_protection_witness :
    transitionPost ⟨some { fbPostId := "w4", status := .delivered }, [], []⟩
        .received {} [] =
      (⟨some { fbPostId := "w4", status := .delivered }, [], []⟩, none) ∧
    processPost {} 0 0 ⟨some { fbPostId := "w4", status := .delivered }, [], []⟩
        none { success := false } { success := false } =
      ⟨⟨some { fbPostId := "w4", status := .delivered }, [], []⟩, false, 0⟩ ∧
    markForRetry ⟨some { fbPostId := "w4", status := .delivered }, [], []⟩ "e" =
      (⟨some { fbPostId := "w4", status := .delivered }, [], []⟩,
        some { fbPostId := "w4", status := .delivered }) := by
  have h := terminal_row_protection
    ⟨some { fbPostId := "w4", status := .delivered }, [], []⟩
    { fbPostId := "w4", status := .delivered } rfl
  exact ⟨(h.1 (Or.inl rfl)).1 .received {} [],
         (h.1 (Or.inl rfl)).2 {} 0 0 none { success := false } { success := false },
         h.2 rfl "e"⟩

/-- C4 counterexample: `markForRetry` invoked on an `ignored` (terminal)
row mutates it — the status becomes `received` and the retry count rises —
refuting the claim that no pipeline operation mutates any field of a row in
a terminal state. -/
theorem markForRetry_mutates_ignored_cex :
    ((markForRetry ⟨some { fbPostId := "p1", status := .ignored }, [], []⟩ "late").1.post.map
        (fun p => (p.status, p.retryCount))) = some (.received, 1) ∧
    (markForRetry ⟨some { fbPostId := "p1", status := .ignored }, [], []⟩ "late").1 ≠
      ⟨some { fbPostId := "p1", status := .ignored }, [], []⟩ := by
  decide

/-- C8 (confirmed): reprocessing a job whose row is already terminal
(`delivered` or `ignored`) is idempotent — `processPost` returns success at
once, with the store byte-for-byte unchanged (no transition, no field
write, no event, no delivery log) and zero dispatch calls to the sink. -/
theorem processPost_terminal_idempotent
    (cfg : Config) (now elapsed : Int) (db : DB) (wd : Option WebhookData)
    (fr : FetchPostResult) (sr : SendResult) (p : Post)
    (hp : db.post = some p) (h : p.status = .delivered ∨ p.status = .ignored) :
    processPost cfg now elapsed db wd fr sr = ⟨db, false, 0⟩ :=
  processPost_terminal hp h

/-- C8 witness: replaying a job for a concrete `ignored` row makes no sink
call and leaves the store unchanged. -/
theorem processPost_terminal_idempotent_witness :
    processPost {} 0 0
      ⟨some { fbPostId := "w8", status := .ignored }, [⟨"webhook_received", []⟩], []⟩
      none { success := true } { success := true } =
      ⟨⟨some { fbPostId := "w8", status := .ignored }, [⟨"webhook_received", []⟩], []⟩,
        false, 0⟩ :=
  processPost_terminal_idempotent {} 0 0
    ⟨some { fbPostId := "w8", status := .ignored }, [⟨"webhook_received", []⟩], []⟩
    none { success := true } { success := true }
    { fbPostId := "w8", status := .ignored } rfl (Or.inr rfl)

/-! ## Claims about the worker's tag filter -/

/-- Spreading an empty updates object changes nothing. -/
lemma applyUpdates_empty (p : Post) : applyUpdates p {} = p := rfl

/-- The data-only persist step never touches the status. -/
lemma persistPost_status (p : Post) (f : FacebookPost) :
    (persistPost p f).status = p.status := rfl

/-- Reaching the tag filter in state `fetching` with an untracked message
ends in `ignored(reason="No tracked hashtag")`, success, and no sink call. -/
lemma processAfterFetch_noTag {cfg : Config} {now elapsed : Int}
    {fid : String} {sr : SendResult} {fbp : FacebookPost} {db2 : DB} {p2 : Post}
    (hp2 : db2.post = some p2) (h2 : p2.status = .fetching)
    (hage : isPostTooOld cfg now fbp.created_time = false)
    (htag : hasAnyTrackedTag cfg fbp.message = false) :
    processAfterFetch cfg now elapsed fid sr fbp db2 =
      ⟨{ db2 with
          post := some { p2 with status := .ignored },
          events := db2.events ++
            [⟨"status_ignored", [("reason", .str "No tracked hashtag")]⟩] },
        false, 0⟩ := by
  have hmem : PostStatus.ignored ∈ VALID_TRANSITIONS p2.status := by
    rw [h2]; decide
  simp only [processAfterFetch, hage, Bool.false_eq_true, if_false, htag, if_true]
  rw [transitionPost_valid hp2 hmem]
  rfl

/-- C5 (amended): a post loaded in state `received` (alerts enabled) whose
fetched or webhook-fallback record survives the age gate but whose message
contains no tracked tag — neither the trigger tag (case-insensitive, with
the right-side non-word-boundary, so `#discord-like` does not count for
`#discord`) nor any `CHANNEL_ROUTES` tag as a case-insensitive substring —
is transitioned to `ignored` with event details reason `No tracked hashtag`
(not `No trigger tag`); the handler returns success and issues no dispatch
call to the sink. -/
theorem tagFilter_ignores_untracked
    (cfg : Config) (now elapsed : Int) (db : DB) (wd : Option WebhookData)
    (fr : FetchPostResult) (sr : SendResult) (p : Post) (fbp : FacebookPost)
    (hp : db.post = some p) (hst : p.status = .received)
    (halerts : cfg.ALERTS_ENABLED = true)
    (heff : effectiveFbPost p.fbPostId wd fr = some fbp)
    (hage : isPostTooOld cfg now fbp.created_time = false)
    (htag : hasAnyTrackedTag cfg fbp.message = false) :
    (processPost cfg now elapsed db wd fr sr).raised = false ∧
    (processPost cfg now elapsed db wd fr sr).sinkCalls = 0 ∧
    (processPost cfg now elapsed db wd fr sr).db.events =
      db.events ++ [⟨"status_fetching", []⟩,
        ⟨"status_ignored", [("reason", .str "No tracked hashtag")]⟩] ∧
    (processPost cfg now elapsed db wd fr sr).db.deliveryLogs = db.deliveryLogs ∧
    ((processPost cfg now elapsed db wd fr sr).db.post.map Post.status) =
      some .ignored := by
  have hnt : ¬(p.status = .delivered ∨ p.status = .ignored) := by
    rw [hst]; decide
  have hA : ¬(cfg.ALERTS_ENABLED = false) := by rw [halerts]; decide
  have hmem : PostStatus.fetching ∈ VALID_TRANSITIONS p.status := by
    rw [hst]; decide
  have hpp : processPost cfg now elapsed db wd fr sr =
      processAfterFetch cfg now elapsed p.fbPostId sr fbp
        (persistFetchedFields (transitionPost db .fetching {} []).1 fbp) := by
    simp only [processPost, hp, if_neg hnt, if_neg hA, heff]
  have h1 : transitionPost db .fetching {} [] =
      ({ db with
          post := some { p with status := .fetching },
          events := db.events ++ [⟨"status_fetching", []⟩] },
        some { p with status := .fetching }) := by
    rw [transitionPost_valid hp hmem]; rfl
  rw [hpp, h1]
  have h2 : persistFetchedFields
      { db with
        post := some { p with status := .fetching },
        events := db.events ++ [⟨"status_fetching", []⟩] } fbp =
      { db with
        post := some (persistPost { p with status := .fetching } fbp),
        events := db.events ++ [⟨"status_fetching", []⟩] } := rfl
  rw [h2, processAfterFetch_noTag rfl rfl hage htag]
  refine ⟨rfl, rfl, by simp, rfl, rfl⟩

/-- C5 witness: a concrete `received` row with message
`Just a regular post` is ignored with no sink call. -/
theorem tagFilter_ignores_untracked_witness :
    (processPost { MAX_POST_AGE_MINUTES := 0 } 0 0
        ⟨some { fbPostId := "p1", status := .received }, [], []⟩ none
        { success := true, post := some { id := "p1", message := some "Just a regular post" } }
        { success := false }).sinkCalls = 0 ∧
    ((processPost { MAX_POST_AGE_MINUTES := 0 } 0 0
        ⟨some { fbPostId := "p1", status := .received }, [], []⟩ none
        { success := true, post := some { id := "p1", message := some "Just a regular post" } }
        { success := false }).db.post.map Post.status) = some .ignored := by
  have h := tagFilter_ignores_untracked { MAX_POST_AGE_MINUTES := 0 } 0 0
      ⟨some { fbPostId := "p1", status := .received }, [], []⟩ none
      { success := true, post := some { id := "p1", message := some "Just a regular post" } }
      { success := false } { fbPostId := "p1", status := .received }
      { id := "p1", message := some "Just a regular post" }
      rfl rfl rfl (by decide) (by decide) (by decide)
  exact ⟨h.2.1, h.2.2.2.2⟩

/-- C5 counterexample: the worker's ignore event carries the details reason
`No tracked hashtag`, not the claimed `No trigger tag`, on a concrete
message that contains no trigger tag. -/
theorem tagFilter_reason_string_cex :
    hasTag { MAX_POST_AGE_MINUTES := 0 } (some "Just a regular post") = false ∧
    (processPost { MAX_POST_AGE_MINUTES := 0 } 0 0
        ⟨some { fbPostId := "p1", status := .received }, [], []⟩ none
        { success := true, post := some { id := "p1", message := some "Just a regular post" } }
        { success := false }).db.events.getLast?
      = some ⟨"status_ignored", [("reason", .str "No tracked hashtag")]⟩ ∧
    (⟨"status_ignored", [("reason", DetailVal.str "No tracked hashtag")]⟩ : PostEvent) ≠
      ⟨"status_ignored", [("reason", DetailVal.str "No trigger tag")]⟩ := by
  decide

/-! ## Claim about dispatch-outcome classification -/

/-- How many of the four outcome classes (success, ambiguous, retryable,
non-retryable — the last being the absence of the first three) a
`SendResult` belongs to. -/
def sendOutcomeClassCount (r : SendResult) : Nat :=
  (if r.success then 1 else 0) + (if r.ambiguous then 1 else 0) +
    (if r.retryable then 1 else 0) +
    (if !r.success && !r.ambiguous && !r.retryable then 1 else 0)

/-- C6 (confirmed): `sendToDiscord` classifies every dispatch outcome into
exactly one of success / ambiguous / retryable / non-retryable: a 2xx
response is success, parsing the message id from the body exactly when
`wait=true` was requested; 429 is retryable with `retryAfterMs` the
`Retry-After` seconds times 1000, defaulting to 5000 ms; any other 5xx is
retryable; any other 4xx is non-retryable; the abort of the 30 s timeout is
ambiguous and not retryable; any other transport error is retryable. -/
theorem sendToDiscord_outcome_classification (wait : Bool) (label : String) :
    (∀ st ra bid bt,
      sendOutcomeClassCount (sendToDiscordClassify wait label (.response st ra bid bt)) = 1 ∧
      (200 ≤ st → st ≤ 299 →
        (sendToDiscordClassify wait label (.response st ra bid bt)).success = true ∧
        (sendToDiscordClassify wait label (.response st ra bid bt)).messageId =
          (if wait then bid else none)) ∧
      (st = 429 →
        (sendToDiscordClassify wait label (.response st ra bid bt)).retryable = true ∧
        (sendToDiscordClassify wait label (.response st ra bid bt)).success = false ∧
        (sendToDiscordClassify wait label (.response st ra bid bt)).retryAfterMs =
          some (match ra with | some s => s * 1000 | none => 5000)) ∧
      (500 ≤ st →
        (sendToDiscordClassify wait label (.response st ra bid bt)).retryable = true ∧
        (sendToDiscordClassify wait label (.response st ra bid bt)).success = false) ∧
      (400 ≤ st → st ≤ 499 → st ≠ 429 →
        (sendToDiscordClassify wait label (.response st ra bid bt)).success = false ∧
        (sendToDiscordClassify wait label (.response st ra bid bt)).retryable = false ∧
        (sendToDiscordClassify wait label (.response st ra bid bt)).ambiguous = false)) ∧
    (sendOutcomeClassCount (sendToDiscordClassify wait label .abortTimeout) = 1 ∧
      (sendToDiscordClassify wait label .abortTimeout).ambiguous = true ∧
      (sendToDiscordClassify wait label .abortTimeout).retryable = false ∧
      (sendToDiscordClassify wait label .abortTimeout).success = false) ∧
    (∀ m, sendOutcomeClassCount (sendToDiscordClassify wait label (.networkError m)) = 1 ∧
      (sendToDiscordClassify wait label (.networkError m)).retryable = true ∧
      (sendToDiscordClassify wait label (.networkError m)).ambiguous = false ∧
      (sendToDiscordClassify wait label (.networkError m)).success = false) := by
  refine ⟨?_, by simp [sendToDiscordClassify, sendOutcomeClassCount], ?_⟩
  · intro st ra bid bt
    by_cases h429 : st = 429
    · subst h429
      refine ⟨by simp [sendToDiscordClassify, sendOutcomeClassCount], ?_, ?_, ?_, ?_⟩
      · intro h1 h2; omega
      · intro _
        refine ⟨rfl, rfl, rfl⟩
      · intro h; omega
      · intro _ _ h; exact absurd rfl h
    · by_cases h2xx : 200 ≤ st ∧ st ≤ 299
      · have hok : sendToDiscordClassify wait label (.response st ra bid bt) =
            { success := true, messageId := if wait then bid else none,
              channel := some label } := by
          simp [sendToDiscordClassify, h429, h2xx]
        refine ⟨by simp [hok, sendOutcomeClassCount], ?_, ?_, ?_, ?_⟩
        · intro _ _; simp [hok]
        · intro h; exact absurd h h429
        · intro h; omega
        · intro h1 h2 _; omega
      · have hbad : sendToDiscordClassify wait label (.response st ra bid bt) =
            { success := false,
              error := some ("HTTP " ++ toString st ++ ": " ++ bt),
              retryable := decide (500 ≤ st), channel := some label } := by
          simp only [sendToDiscordClassify, if_neg h429]
          rw [if_pos h2xx]
        refine ⟨?_, ?_, ?_, ?_, ?_⟩
        · by_cases h5 : 500 ≤ st <;>
            simp [hbad, sendOutcomeClassCount, h5]
        · intro h1 h2; exact absurd ⟨h1, h2⟩ h2xx
        · intro h; exact absurd h h429
        · intro h5; simp [hbad, h5]
        · intro h1 h2 _
          have h5 : ¬(500 ≤ st) := by omega
          simp [hbad, h5]
  · intro m
    refine ⟨by simp [sendToDiscordClassify, sendOutcomeClassCount], rfl, rfl, rfl⟩

/-- C6 witness: concrete classifications — a 429 with `Retry-After: 7`
yields retryable with 7000 ms, and a 204 with `wait=true` parses the id. -/
theorem sendToDiscord_outcome_classification_witness :
    (sendToDiscordClassify true "default" (.response 429 (some 7) none "")).retryAfterMs
      = some 7000 ∧
    (sendToDiscordClassify true "default" (.response 204 none (some "m1") "")).messageId
      = some "m1" := by
  have h := sendToDiscord_outcome_classification true "default"
  refine ⟨((h.1 429 (some 7) none "").2.2.1 rfl).2.2, ?_⟩
  have h2 := ((h.1 204 none (some "m1") "").2.1 (by omega) (by omega)).2
  simpa using h2

/-! ## Claims about ingress signature verification -/

/-- Round trip of one nibble through the lowercase hex alphabet. -/
lemma hexVal_hexDigitChar (n : Nat) (h : n < 16) :
    hexVal (hexDigitChar n) = some n := by
  interval_cases n <;> decide

/-- Node's permissive decoder inverts the canonical lowercase encoding. -/
lemma hexDecode_hexEncode (bs : List Nat) (h : ∀ b ∈ bs, b < 256) :
    hexDecodeNodeL (hexEncodeBytes bs) = bs := by
  induction bs with
  | nil => rfl
  | cons b bs ih =>
    have hb : b < 256 := h b (by simp)
    have h1 : b / 16 < 16 := Nat.div_lt_of_lt_mul (by omega)
    have h2 : b % 16 < 16 := Nat.mod_lt _ (by omega)
    show hexDecodeNodeL
      (hexDigitChar (b / 16) :: hexDigitChar (b % 16) :: hexEncodeBytes bs) = b :: bs
    rw [hexDecodeNodeL, hexVal_hexDigitChar _ h1, hexVal_hexDigitChar _ h2]
    rw [ih (fun x hx => h x (by simp [hx]))]
    show (16 * (b / 16) + b % 16) :: bs = b :: bs
    rw [Nat.div_add_mod b 16]

/-- A list is a Boolean prefix of itself followed by anything. -/
lemma isPrefixOfL_append_self (l r : List Char) : isPrefixOfL l (l ++ r) = true := by
  induction l with
  | nil => rfl
  | cons a as ih => simp [isPrefixOfL, ih]

/-- C2 (amended): the ingress signature check accepts exactly those headers
of the form `sha256=<t>` where `t` decodes, under Node's permissive hex
decoder (case-insensitive, stopping at the first non-hex character or odd
trailing nibble), to the 32 MAC bytes `HMAC-SHA256(app_secret, raw_body)`.
The canonical `sha256=` + lowercase-hex signature is accepted, a missing
header is rejected, and on any rejected signature the POST handler answers
403 without touching any state — but acceptance is strictly wider than the
claimed "exactly the lowercase hex encoding": uppercase or garbage-suffixed
spellings of the MAC are accepted too (see the counterexample). -/
theorem verifySignature_acceptance_characterization
    (mac : List Nat) (hmac : ∀ b ∈ mac, b < 256) :
    (∀ s : String, verifySignature mac (some s) = true ↔
      (isPrefixOfL "sha256=".data s.data = true ∧
        hexDecodeNodeL (s.data.drop 7) = mac)) ∧
    verifySignature mac (some ("sha256=" ++ hexEncode mac)) = true ∧
    verifySignature mac none = false ∧
    (∀ sig db k, verifySignature mac sig = false →
      handleWebhookPost mac sig db k = (403, db)) := by
  have hval : ∀ s : String, verifySignature mac (some s) =
      (if isPrefixOfL "sha256=".data s.data then
        ((hexDecodeNodeL (s.data.drop 7)).length ==
            (hexDecodeNodeL (hexEncodeBytes mac)).length &&
          hexDecodeNodeL (s.data.drop 7) == hexDecodeNodeL (hexEncodeBytes mac))
       else false) := fun _ => rfl
  have hchar : ∀ s : String, verifySignature mac (some s) = true ↔
      (isPrefixOfL "sha256=".data s.data = true ∧
        hexDecodeNodeL (s.data.drop 7) = mac) := by
    intro s
    rw [hval s, hexDecode_hexEncode mac hmac]
    by_cases hpre : isPrefixOfL "sha256=".data s.data = true
    · rw [if_pos hpre]
      simp only [Bool.and_eq_true, beq_iff_eq]
      constructor
      · rintro ⟨-, h2⟩
        exact ⟨hpre, h2⟩
      · rintro ⟨-, h2⟩
        exact ⟨by rw [h2], h2⟩
    · rw [if_neg hpre]
      constructor
      · intro h
        exact absurd h (by decide)
      · rintro ⟨h1, -⟩
        exact absurd h1 hpre
  refine ⟨hchar, ?_, rfl, ?_⟩
  · rw [hchar]
    have hd : ("sha256=" ++ hexEncode mac).data = "sha256=".data ++ hexEncodeBytes mac := by
      rw [String.data_append]; rfl
    constructor
    · rw [hd]; exact isPrefixOfL_append_self _ _
    · rw [hd]
      have h7 : ("sha256=".data).length = 7 := rfl
      rw [← h7, List.drop_left]
      exact hexDecode_hexEncode mac hmac
  · intro sig db k h
    simp [handleWebhookPost, h]

/-- C2 witness: a concrete 32-byte MAC with its canonical lowercase-hex
signature is accepted. -/
theorem verifySignature_acceptance_witness :
    verifySignature (List.replicate 32 171)
      (some ("sha256=" ++ hexEncode (List.replicate 32 171))) = true :=
  (verifySignature_acceptance_characterization (List.replicate 32 171)
    (by decide)).2.1

/-- C2 counterexample: the check also accepts a signature that is *not*
`sha256=` followed by the lowercase hex encoding of the MAC — here the hex
digits followed by a stray `z`, which Node's `Buffer.from(_, 'hex')`
silently drops — refuting the claimed "accepts iff equal" property. -/
theorem verifySignature_nonCanonical_accept_cex :
    verifySignature (List.replicate 32 0)
      (some ("sha256=" ++ String.mk (List.replicate 64 '0') ++ "z")) = true ∧
    ("sha256=" ++ String.mk (List.replicate 64 '0') ++ "z") ≠
      "sha256=" ++ hexEncode (List.replicate 32 0) := by
  decide

/-! ## Claim about `discord_msg_id` -/

/-- The one-directional data-model invariant: a non-null `discord_msg_id`
occurs only on a `delivered` row. -/
def msgIdInv (db : DB) : Prop :=
  ∀ p, db.post = some p → p.discordMsgId ≠ none → p.status = .delivered

/-- `transitionPost` preserves the invariant whenever the caller either does
not supply `discordMsgId` or targets `delivered`. -/
lemma transitionPost_msgIdInv {db : DB} {ts : PostStatus} {u : PostUpdates}
    {det : List (String × DetailVal)}
    (hu : u.discordMsgId = none ∨ ts = .delivered) (h : msgIdInv db) :
    msgIdInv (transitionPost db ts u det).1 := by
  cases hdb : db.post with
  | none =>
    have : transitionPost db ts u det = (db, none) := by simp [transitionPost, hdb]
    rw [this]
    exact h
  | some p =>
    by_cases hm : ts ∈ VALID_TRANSITIONS p.status
    · rw [transitionPost_valid hdb hm]
      intro q hq hmsg
      have hq' : some { applyUpdates p u with status := ts } = some q := hq
      cases hq'
      rcases hu with hu | hu
      · have hpm : p.discordMsgId ≠ none := by
          simpa [applyUpdates, hu] using hmsg
        have hpd : p.status = .delivered := h p hdb hpm
        rw [hpd] at hm
        simp [VALID_TRANSITIONS] at hm
      · exact hu
    · rw [transitionPost_invalid hdb hm]
      exact h

/-- `markForRetry` preserves the invariant. -/
lemma markForRetry_msgIdInv {db : DB} {e : String} (h : msgIdInv db) :
    msgIdInv (markForRetry db e).1 := by
  cases hdb : db.post with
  | none =>
    have : markForRetry db e = (db, none) := by simp [markForRetry, hdb]
    rw [this]
    exact h
  | some p =>
    by_cases hd : p.status = .delivered
    · rw [markForRetry_delivered hdb hd]
      exact h
    · rw [markForRetry_not_delivered hdb hd]
      intro q hq hmsg
      have hq' : some ({ p with status := .received, lastError := some e, retryCount := p.retryCount + 1 } : Post) = some q := hq
      cases hq'
      exact absurd (h p hdb hmsg) hd

/-- The data-only persist step preserves the invariant. -/
lemma persistFetchedFields_msgIdInv {db : DB} {f : FacebookPost}
    (h : msgIdInv db) : msgIdInv (persistFetchedFields db f) := by
  cases hdb : db.post with
  | none => simpa [persistFetchedFields, hdb] using h
  | some p =>
    simp only [persistFetchedFields, hdb]
    intro q hq hmsg
    have hq' : some (persistPost p f) = some q := hq
    cases hq'
    exact h p hdb hmsg

/-- Appending a delivery log does not touch the row. -/
lemma logDelivery_msgIdInv {db : DB} {fid : String} {s : Bool}
    {m e : Option String} {l : Option Int} (h : msgIdInv db) :
    msgIdInv (logDelivery db fid s m e l) :=
  fun q hq => h q hq

/-- `getOrCreatePost` preserves the invariant (a fresh row has a null
`discord_msg_id`). -/
lemma getOrCreatePost_msgIdInv {db : DB} {fid iso : String} (h : msgIdInv db) :
    msgIdInv (getOrCreatePost db fid iso).1 := by
  cases hdb : db.post with
  | some p =>
    simp only [getOrCreatePost, hdb]
    exact h
  | none =>
    simp only [getOrCreatePost, hdb]
    intro q hq hmsg
    have hq' : some { fbPostId := fid, status := .received : Post } = some q := hq
    cases hq'
    exact absurd rfl hmsg

/-- The outcome step preserves the invariant: the only branch that writes
`discordMsgId` is the transition into `delivered`. -/
lemma processOutcome_msgIdInv {now elapsed : Int} {sr : SendResult} {db5 : DB}
    (h : msgIdInv db5) : msgIdInv (processOutcome now elapsed sr db5).db := by
  unfold processOutcome
  split_ifs
  · exact transitionPost_msgIdInv (Or.inr rfl) h
  · exact transitionPost_msgIdInv (Or.inl rfl) h
  · exact markForRetry_msgIdInv h
  · exact transitionPost_msgIdInv (Or.inl rfl) h

/-- Steps 6-11 preserve the invariant. -/
lemma processAfterFetch_msgIdInv {cfg : Config} {now elapsed : Int}
    {fid : String} {sr : SendResult} {fbp : FacebookPost} {db2 : DB}
    (h : msgIdInv db2) :
    msgIdInv (processAfterFetch cfg now elapsed fid sr fbp db2).db := by
  unfold processAfterFetch
  split_ifs
  · exact transitionPost_msgIdInv (Or.inl rfl) h
  · exact transitionPost_msgIdInv (Or.inl rfl) h
  · exact processOutcome_msgIdInv (logDelivery_msgIdInv
      (transitionPost_msgIdInv (Or.inl rfl)
        (transitionPost_msgIdInv (Or.inl rfl) h)))

/-- A whole worker job preserves the invariant. -/
lemma processPost_msgIdInv {cfg : Config} {now elapsed : Int} {db : DB}
    {wd : Option WebhookData} {fr : FetchPostResult} {sr : SendResult}
    (h : msgIdInv db) :
    msgIdInv (processPost cfg now elapsed db wd fr sr).db := by
  cases hdb : db.post with
  | none =>
    simp only [processPost, hdb]
    exact h
  | some p =>
    simp only [processPost, hdb]
    by_cases ht : p.status = .delivered ∨ p.status = .ignored
    · rw [if_pos ht]; exact h
    · rw [if_neg ht]
      by_cases ha : cfg.ALERTS_ENABLED = false
      · rw [if_pos ha]; exact h
      · rw [if_neg ha]
        cases heff : effectiveFbPost p.fbPostId wd fr with
        | none =>
          simp only [heff]
          by_cases hr : fr.retryable = true
          · rw [if_pos hr]
            exact markForRetry_msgIdInv (transitionPost_msgIdInv (Or.inl rfl) h)
          · rw [if_neg hr]
            exact transitionPost_msgIdInv (Or.inl rfl)
              (transitionPost_msgIdInv (Or.inl rfl) h)
        | some fbp =>
          simp only [heff]
          exact processAfterFetch_msgIdInv (persistFetchedFields_msgIdInv
            (transitionPost_msgIdInv (Or.inl rfl) h))

/-- C7 (amended): every pipeline operation — the ingress upsert, a worker
job under arbitrary upstream/sink responses, and the operator retry —
preserves the invariant `discord_msg_id ≠ null → status = delivered`: a
non-null message id occurs only on delivered rows, because only the
transition into `delivered` ever supplies `discordMsgId`.  The claimed
converse (`delivered → discord_msg_id non-null`) is false: when the sink
reply carries no message id (`DISCORD_WEBHOOK_WAIT=false`, or an unparsable
body), the row is delivered with `discord_msg_id` still null (see the
counterexample). -/
theorem discordMsgId_only_when_delivered
    (cfg : Config) (db db' : DB) (hstep : PipelineStep cfg db db')
    (h : msgIdInv db) : msgIdInv db' := by
  cases hstep with
  | create fid iso => exact getOrCreatePost_msgIdInv h
  | process now elapsed wd fr sr => exact processPost_msgIdInv h
  | retry e => exact markForRetry_msgIdInv h

/-- C7 witness: from the empty store, the ingress upsert yields a store
satisfying the invariant. -/
theorem discordMsgId_only_when_delivered_witness :
    msgIdInv (getOrCreatePost ⟨none, [], []⟩ "p1" "2026-01-01T00:00:00Z").1 :=
  discordMsgId_only_when_delivered {} ⟨none, [], []⟩ _
    (PipelineStep.create ⟨none, [], []⟩ "p1" "2026-01-01T00:00:00Z")
    (fun _ hq => nomatch hq)

/-- C7 counterexample: with `DISCORD_WEBHOOK_WAIT=false` the Discord client
does not parse a message id even though the sink returned one, and the full
worker run delivers the post with `discord_msg_id` still null — refuting
the claimed `non-null iff delivered`. -/
theorem delivered_null_discordMsgId_cex :
    ((processPost { MAX_POST_AGE_MINUTES := 0, DISCORD_WEBHOOK_WAIT := false } 0 0
        ⟨some { fbPostId := "p1", status := .received }, [], []⟩ none
        { success := true, post := some { id := "p1", message := some "Buy AAPL #discord" } }
        (sendToDiscordClassify false "default" (.response 200 none (some "msg123") ""))).db.post.map
        (fun p => (p.status, p.discordMsgId)))
      = some (.delivered, none) := by
  decide

/-! ## Claim about routing vs. eligibility tag sets -/

/-- A nonempty needle is never an infix of the empty haystack. -/
lemma isInfixOfL_nil {t : List Char} (h : t ≠ []) : isInfixOfL t [] = false := by
  cases t with
  | nil => exact absurd rfl h
  | cons c cs => rfl

/-- The priority scan returns nothing when no priority tag that is also a
route key occurs in the message. -/
lemma findRoutedAux_none (routes : List (String × String)) (msgLower : String)
    (pr : List String)
    (h : ∀ t ∈ pr, mapHas routes t = true →
      isInfixOfL t.data msgLower.data = false) :
    findRoutedAux routes msgLower pr = none := by
  induction pr with
  | nil => rfl
  | cons t rest ih =>
    have hcond : ¬((isInfixOfL t.data msgLower.data && mapHas routes t) = true) := by
      intro hc
      rcases Bool.and_eq_true .. |>.mp hc with ⟨ha, hb⟩
      rw [h t (by simp) hb] at ha
      cases ha
    simp only [findRoutedAux, if_neg hcond]
    exact ih (fun t' ht' => h t' (by simp [ht']))

/-- C10 (confirmed): eligibility and routing consult different tag sets.
For every message containing some (nonempty) `CHANNEL_ROUTES` tag as a
case-insensitive substring while containing neither the trigger tag nor any
tag lying in both `CHANNEL_PRIORITY` and `CHANNEL_ROUTES`, the worker's
gate `hasAnyTrackedTag` answers true (the post becomes eligible and is
dispatched), yet `findRoutedChannel` finds nothing and `resolveWebhook`
falls back to the default `DISCORD_WEBHOOK_URL` with label `default` — a
route tag absent from the priority list is never selected for routing. -/
theorem routing_vs_eligibility_mismatch
    (cfg : Config) (m : String)
    (h1 : ∃ t u, (t, u) ∈ getChannelRoutes cfg ∧ t ≠ "" ∧
      isInfixOfL t.data (lowerStr m).data = true)
    (h2 : hasTag cfg (some m) = false)
    (h3 : ∀ t ∈ getChannelPriority cfg, mapHas (getChannelRoutes cfg) t = true →
      isInfixOfL t.data (lowerStr m).data = false) :
    hasAnyTrackedTag cfg (some m) = true ∧
    findRoutedChannel cfg (some m) = none ∧
    (∀ post : FacebookPost, post.message = some m →
      (resolveWebhook cfg post).1 = cfg.DISCORD_WEBHOOK_URL ∧
      (resolveWebhook cfg post).2.1 = "default") := by
  obtain ⟨t, u, htu, htne, hinf⟩ := h1
  have hm : m ≠ "" := by
    intro hme
    have htd : t.data ≠ [] := by
      intro hd
      apply htne
      cases t
      simp at hd
      rw [hd]
    rw [hme] at hinf
    rw [show (lowerStr "").data = [] from rfl] at hinf
    rw [isInfixOfL_nil htd] at hinf
    cases hinf
  have hrc : findRoutedChannel cfg (some m) = none := by
    simp only [findRoutedChannel, if_neg hm]
    exact findRoutedAux_none _ _ _ h3
  refine ⟨?_, hrc, ?_⟩
  · simp only [hasAnyTrackedTag, if_neg hm, h2, Bool.false_eq_true, if_false]
    exact List.any_eq_true.mpr ⟨(t, u), htu, hinf⟩
  · intro post hpost
    have : post.message.getD "" = m := by rw [hpost]; rfl
    simp [resolveWebhook, this, hrc]

/-- C10 witness: with routes `#news → hook1` and priority
`#stockmarketnews`, the message `hello #news` is tracked (eligible) yet
routed to the default webhook. -/
theorem routing_vs_eligibility_mismatch_witness :
    hasAnyTrackedTag
      { DISCORD_WEBHOOK_URL := "https://default",
        CHANNEL_ROUTES := [("#news", "https://hook1")],
        CHANNEL_PRIORITY := ["#stockmarketnews"] } (some "hello #news") = true ∧
    (resolveWebhook
      { DISCORD_WEBHOOK_URL := "https://default",
        CHANNEL_ROUTES := [("#news", "https://hook1")],
        CHANNEL_PRIORITY := ["#stockmarketnews"] }
      { id := "p1", message := some "hello #news" }).1 = "https://default" := by
  have h := routing_vs_eligibility_mismatch
    { DISCORD_WEBHOOK_URL := "https://default",
      CHANNEL_ROUTES := [("#news", "https://hook1")],
      CHANNEL_PRIORITY := ["#stockmarketnews"] } "hello #news"
    ⟨"#news", "https://hook1", by decide, by decide, by decide⟩
    (by decide) (by decide)
  exact ⟨h.1, (h.2.2 { id := "p1", message := some "hello #news" } rfl).1⟩

/-! ## Claim about stripping then testing the trigger tag -/

/-- C9 (code bug): the spec's round-trip property
`has_tag(strip_tag(m)) == false` fails.  `stripTag` removes occurrences in
one left-to-right pass, so deleting the single occurrence of `#discord`
inside `#dis#discordcord` splices the surrounding fragments into a fresh
`#discord`, which `hasTag` then matches. -/
theorem stripTag_hasTag_failing_input :
    stripTag { TRIGGER_TAG := "#discord" } "#dis#discordcord" = "#discord" ∧
    hasTag { TRIGGER_TAG := "#discord" }
      (some (stripTag { TRIGGER_TAG := "#discord" } "#dis#discordcord")) = true := by
  decide
